import Mathlib

/-
Verification of the web-wallet repository: a shallow embedding of the
WebWallet session object (src/unnamed/part_000) and of the gas-price
client (src/api.js), followed by theorems about the embedded operations.

Modelling conventions:
- Every JavaScript method that may assign to fields of the session object
  is embedded as a function from the session state to a pair of the state
  at return or throw time and an Except result; methods that only read
  state are embedded as pure functions of the state.
- Network answers (token decimals, balances, transaction counts, event
  logs, explorer history) are supplied as explicit oracle arguments, since
  they come from external collaborators the repository treats as black
  boxes.
- The external encryption contract (ethers Wallet.encrypt and
  Wallet.fromEncryptedJson) is modelled by keeping the encrypted JSON as
  the pair of the protected wallet data and the password: decryption with
  the same password recovers the data, any other password is rejected.
- Arbitrary-precision BigNumber arithmetic is modelled on Nat.
-/

namespace WebWallet

/-- Key material exposed by an ethers signer: address, private key and
mnemonic derived from one key. -/
structure WalletData where
  address : String
  privateKey : String
  mnemonic : String
deriving DecidableEq

/-- A signer handle (an ethers Wallet): key material plus the network it
was connected to via wallet.connect, if any. -/
structure Signer where
  data : WalletData
  provider : Option String
deriving DecidableEq

/-- The string produced by wallet.encrypt(password). The external
contract is modelled by remembering the protected data and the password:
Wallet.fromEncryptedJson succeeds exactly on the same password. -/
structure EncryptedJson where
  payload : WalletData
  password : String
deriving DecidableEq

/-- One entry of this.tokens as pushed by addToken. The bound contract
handle is determined by the address and signer, so it is not repeated
here. -/
structure TokenEntry where
  symbol : String
  address : String
  decimals : Nat
  oneToken : Nat
deriving DecidableEq

/-- The mutable fields of the WebWallet constructor function. The
JavaScript encryptedJsonWallet is a string whose empty value is falsy;
it is modelled as an Option. -/
structure WalletState where
  wallet : Option Signer
  isLocked : Bool
  tokens : List TokenEntry
  provider : Option String
  transactionNonce : Option Nat
  network : String
  encryptedJsonWallet : Option EncryptedJson
deriving DecidableEq

/-- The distinct failure signals of the wallet methods, thrown or used to
reject the returned promise. -/
inductive Err where
  /-- message: Wallet is locked! -/
  | walletLocked
  /-- connect when this.wallet is null -/
  | walletIsNull
  /-- message: Token does now exist! / Token does not exist! -/
  | tokenNotFound
  /-- ethers.utils.getAddress threw: Invalid Ethereum address -/
  | invalidAddress
  /-- BigNumber.from threw on a non-numeric amount string -/
  | invalidAmount
  /-- Wallet.fromEncryptedJson rejected: wrong password -/
  | wrongPassword
  /-- Wallet.fromEncryptedJson rejected: the stored backup is empty -/
  | emptyBackup
  /-- createERC20TokenContract threw: no signer or network provider -/
  | noProvider
  /-- the EtherscanProvider constructor threw: invalid network name -/
  | invalidNetwork
  /-- TypeError from a member access on a null wallet -/
  | nullWallet
deriving DecidableEq

/-- External interactions performed by an operation, recorded so that
theorems can state when the network or the encryption routine is used. -/
inductive Effect where
  /-- contract.decimals() was awaited for this token address -/
  | fetchDecimals (address : String)
  /-- this.wallet.encrypt(password) was awaited -/
  | encryptWallet (password : String)
  /-- this.wallet.sendTransaction was invoked with this nonce and target -/
  | sendTransaction (nonce : Nat) (toAddr : String)
deriving DecidableEq

/-- The WebWallet constructor followed by its initWallet call. All four
factory functions of the module (createWallet, restoreWalletFromPrivateKey,
restoreWalletFromEncryptedJSON, restoreWalletFromMnemonic) pass no second
argument, so encryptedJsonWallet starts empty. -/
def mkWebWallet (signer : Signer) : WalletState :=
  { wallet := some signer
    isLocked := false
    tokens := []
    provider := none
    transactionNonce := none
    network := ""
    encryptedJsonWallet := none }

/-- connect(network): throws when this.wallet is null, otherwise installs
a default provider for the network and rebinds the wallet to it. -/
def connect (s : WalletState) (network : String) : WalletState × Except Err Unit :=
  match s.wallet with
  | none => (s, .error .walletIsNull)
  | some sg =>
      ({ s with provider := some network
                network := network
                wallet := some { sg with provider := some network } },
       .ok ())

/-- addToken(symbol, address): throws when locked; returns unchanged when
the address is already registered; otherwise builds the ERC-20 contract
(throwing when there is no signer or the signer has no provider), awaits
contract.decimals() - supplied by the decimalsOracle argument - and pushes
the new entry with oneToken = 10 ^ decimals. -/
def addToken (s : WalletState) (symbol address : String) (decimalsOracle : Nat) :
    WalletState × List Effect × Except Err Unit :=
  if s.isLocked then (s, [], .error .walletLocked)
  else if (s.tokens.find? fun t => t.address == address).isSome then (s, [], .ok ())
  else
    match s.wallet with
    | none => (s, [], .error .noProvider)
    | some sg =>
        match sg.provider with
        | none => (s, [], .error .noProvider)
        | some _ =>
            let decimals := decimalsOracle
            ({ s with tokens := s.tokens ++
                [{ symbol := symbol, address := address, decimals := decimals,
                   oneToken := 10 ^ decimals }] },
             [Effect.fetchDecimals address], .ok ())

/-- lock(password): when no encrypted backup exists yet, awaits
this.wallet.encrypt(password) and stores the result (a TypeError if the
wallet is null); then nulls the wallet, sets the locked flag, clears
provider, tokens and network, and returns the stored backup. -/
def lock (s : WalletState) (password : String) :
    WalletState × List Effect × Except Err EncryptedJson :=
  match s.encryptedJsonWallet with
  | some backup =>
      ({ s with wallet := none, isLocked := true, provider := none,
                tokens := [], network := "" },
       [], .ok backup)
  | none =>
      match s.wallet with
      | none => (s, [], .error .nullWallet)
      | some sg =>
          let backup : EncryptedJson := { payload := sg.data, password := password }
          ({ s with encryptedJsonWallet := some backup, wallet := none,
                    isLocked := true, provider := none, tokens := [], network := "" },
           [Effect.encryptWallet password], .ok backup)

/-- unlock(password): awaits Wallet.fromEncryptedJson on the stored
backup, which rejects on an empty backup or a wrong password; on success
initWallet installs the recovered signer and clears the locked flag. -/
def unlock (s : WalletState) (password : String) : WalletState × Except Err Unit :=
  match s.encryptedJsonWallet with
  | none => (s, .error .emptyBackup)
  | some backup =>
      if password = backup.password then
        ({ s with wallet := some { data := backup.payload, provider := none },
                  isLocked := false },
         .ok ())
      else (s, .error .wrongPassword)

/-- setNonce(): awaits this.wallet.getTransactionCount() - supplied by
the transactionCount oracle argument - and stores it; a TypeError when
the wallet is null. -/
def setNonce (s : WalletState) (transactionCount : Nat) : WalletState × Except Err Unit :=
  match s.wallet with
  | none => (s, .error .nullWallet)
  | some _ => ({ s with transactionNonce := some transactionCount }, .ok ())

/-- getAddress(): throws when locked, else returns this.wallet.address. -/
def getAddress (s : WalletState) : Except Err String :=
  if s.isLocked then .error .walletLocked
  else
    match s.wallet with
    | none => .error .nullWallet
    | some sg => .ok sg.data.address

/-- getPrivateKey(): throws when locked, else returns
this.wallet.privateKey. -/
def getPrivateKey (s : WalletState) : Except Err String :=
  if s.isLocked then .error .walletLocked
  else
    match s.wallet with
    | none => .error .nullWallet
    | some sg => .ok sg.data.privateKey

/-- getMnemonics(): throws when locked, else returns
this.wallet.mnemonic. -/
def getMnemonics (s : WalletState) : Except Err String :=
  if s.isLocked then .error .walletLocked
  else
    match s.wallet with
    | none => .error .nullWallet
    | some sg => .ok sg.data.mnemonic

/-- Models ethers.utils.formatEther: the wei amount rendered as a decimal
string at 18 decimals. The exact digit grouping of the external library
is not relied on by any theorem. -/
def formatEther (wei : Nat) : String :=
  toString (wei / 10 ^ 18) ++ "." ++ toString (wei % 10 ^ 18)

/-- getEtherBalance(): throws when locked, else awaits
this.wallet.getBalance() - the weiBalance oracle argument - and formats
it with formatEther. -/
def getEtherBalance (s : WalletState) (weiBalance : Nat) : Except Err String :=
  if s.isLocked then .error .walletLocked
  else
    match s.wallet with
    | none => .error .nullWallet
    | some _ => .ok (formatEther weiBalance)

/-- getTokenBalance(tokenAddress): rejects when locked or when the token
is not registered; otherwise awaits balanceOf - the rawBalance oracle
argument - and returns the BigNumber division by oneToken converted to a
number, which truncates the quotient. -/
def getTokenBalance (s : WalletState) (tokenAddress : String) (rawBalance : Nat) :
    Except Err Nat :=
  if s.isLocked then .error .walletLocked
  else
    match s.tokens.find? fun t => t.address == tokenAddress with
    | none => .error .tokenNotFound
    | some token =>
        match s.wallet with
        | none => .error .nullWallet
        | some _ => .ok (rawBalance / token.oneToken)

/-- One transaction as returned by the Etherscan provider history. -/
structure EtherscanTx where
  hash : String
  fromAddr : String
  toAddr : String
  value : Nat
  timestamp : Nat
deriving DecidableEq

/-- One reshaped entry of the getEtherHistory result. -/
structure EtherHistoryEntry where
  transactionHash : String
  status : String
  fromAddr : String
  toAddr : String
  amount : String
  timestamp : Nat
deriving DecidableEq

/-- The map body of getEtherHistory. -/
def etherHistoryEntry (address : String) (d : EtherscanTx) : EtherHistoryEntry :=
  { transactionHash := d.hash
    status :=
      if d.fromAddr = address ∧ d.toAddr = address then "SELF"
      else if d.fromAddr = address then "OUT" else "IN"
    fromAddr := d.fromAddr
    toAddr := d.toAddr
    amount := formatEther d.value
    timestamp := d.timestamp }

/-- Models the network names accepted by the ethers v5 EtherscanProvider
constructor. Any other string - in particular the empty string that
this.network holds whenever the session is locked or was never
connected - makes the constructor throw an invalid-network error. -/
def isEtherscanNetwork (network : String) : Bool :=
  network == "homestead" || network == "ropsten" || network == "rinkeby" ||
    network == "kovan" || network == "goerli"

/-- getEtherHistory(network, address, start, end): parameter defaulting
runs first, the network argument defaulting to this.network and the
address argument to this.wallet.address - the latter raising a TypeError
when the wallet is null; then the body constructs the EtherscanProvider,
which throws when the network name is not a known one. There is no
locked check. The Etherscan provider answer for a network is supplied by
the getHistory oracle argument; the start and end bounds are forwarded
to it and are absorbed into the oracle. -/
def getEtherHistory (s : WalletState) (networkArg addressArg : Option String)
    (getHistory : String → List EtherscanTx) : Except Err (List EtherHistoryEntry) :=
  let network := networkArg.getD s.network
  let addressRes : Except Err String :=
    match addressArg with
    | some a => .ok a
    | none =>
        match s.wallet with
        | some sg => .ok sg.data.address
        | none => .error .nullWallet
  match addressRes with
  | .error e => .error e
  | .ok address =>
      if isEtherscanNetwork network then
        .ok ((getHistory network).map (etherHistoryEntry address))
      else .error .invalidNetwork

/-- One Transfer event from contract.queryFilter, with args from, to and
amount. -/
structure TransferEvent where
  transactionHash : String
  fromAddr : String
  toAddr : String
  amount : Nat
deriving DecidableEq

/-- One reshaped entry of the getTokenHistory result. -/
structure TokenHistoryEntry where
  transactionHash : String
  status : String
  fromAddr : String
  toAddr : String
  amount : String
deriving DecidableEq

/-- The map body of getTokenHistory: the amount is the BigNumber division
of args[2] by 10 ^ 18 rendered with toString, a fixed scale independent
of the registered decimals of the token. -/
def tokenHistoryEntry (walletAddress : String) (d : TransferEvent) : TokenHistoryEntry :=
  { transactionHash := d.transactionHash
    status :=
      if d.fromAddr = walletAddress ∧ d.toAddr = walletAddress then "SELF"
      else if d.fromAddr = walletAddress then "OUT" else "IN"
    fromAddr := d.fromAddr
    toAddr := d.toAddr
    amount := toString (d.amount / 10 ^ 18) }

/-- getTokenHistory(tokenAddress): rejects when locked or when the token
is not registered; filters the Transfer log - the events oracle argument -
with args.some over the wallet address. The strict equality of the
numeric third argument with the address string is always false, so the
filter keeps exactly the events whose from or to field is the wallet
address. -/
def getTokenHistory (s : WalletState) (tokenAddress : String)
    (events : List TransferEvent) : Except Err (List TokenHistoryEntry) :=
  if s.isLocked then .error .walletLocked
  else
    match s.tokens.find? fun t => t.address == tokenAddress with
    | none => .error .tokenNotFound
    | some _ =>
        match s.wallet with
        | none => .error .nullWallet
        | some sg =>
            .ok ((events.filter fun d =>
                    d.fromAddr == sg.data.address || d.toAddr == sg.data.address).map
                  (tokenHistoryEntry sg.data.address))

/-- Hex digit acceptance of an address character. -/
def isHexDigitChar (c : Char) : Bool :=
  c.isDigit || ('a' ≤ c && c ≤ 'f') || ('A' ≤ c && c ≤ 'F')

/-- Models the structural acceptance of ethers.utils.getAddress: a 0x
prefix followed by forty hexadecimal digits. -/
def isValidAddress (s : String) : Bool :=
  match s.data with
  | '0' :: 'x' :: rest => rest.length == 40 && rest.all isHexDigitChar
  | _ => false

/-- The transaction request passed to this.wallet.sendTransaction. The
amount and gas strings are kept as given; their conversion by parseEther
and parseUnits belongs to the external library. -/
structure EtherTxRequest where
  nonce : Nat
  toAddr : String
  amountEther : String
  gasGwei : String
deriving DecidableEq

/-- sendEther(to, amount, gas, transactionSpeed): rejects when
ethers.utils.getAddress throws on the target; then evaluates
this.wallet.sendTransaction, a TypeError when the wallet is null - the
callee is resolved before the argument object, so the nonce is not
incremented on that path. The postfix increment on a null nonce coerces
it to zero. The unused transactionSpeed parameter is omitted. -/
def sendEther (s : WalletState) (toAddr amount gas : String) :
    WalletState × List Effect × Except Err EtherTxRequest :=
  if !isValidAddress toAddr then (s, [], .error .invalidAddress)
  else
    match s.wallet with
    | none => (s, [], .error .nullWallet)
    | some _ =>
        let nonce := s.transactionNonce.getD 0
        ({ s with transactionNonce := some (nonce + 1) },
         [Effect.sendTransaction nonce toAddr],
         .ok { nonce := nonce, toAddr := toAddr, amountEther := amount, gasGwei := gas })

/-- The call made to contract.transfer by sendToken. -/
structure TokenTxRequest where
  nonce : Nat
  toAddr : String
  amountScaled : Nat
  gasGwei : String
deriving DecidableEq

/-- sendToken(tokenAddress, to, amount, gas, transactionSpeed): rejects
when locked, when the token is not registered, or when the target address
is invalid; BigNumber.from(amount) throws on a non-numeric string; then
invokes contract.transfer with the amount scaled by oneToken, using and
post-incrementing the nonce (a null nonce coerces to zero). The unused
transactionSpeed parameter is omitted. -/
def sendToken (s : WalletState) (tokenAddress toAddr amount gas : String) :
    WalletState × Except Err TokenTxRequest :=
  if s.isLocked then (s, .error .walletLocked)
  else
    match s.tokens.find? fun t => t.address == tokenAddress with
    | none => (s, .error .tokenNotFound)
    | some token =>
        if !isValidAddress toAddr then (s, .error .invalidAddress)
        else
          match amount.toNat? with
          | none => (s, .error .invalidAmount)
          | some a =>
              let nonce := s.transactionNonce.getD 0
              ({ s with transactionNonce := some (nonce + 1) },
               .ok { nonce := nonce, toAddr := toAddr, amountScaled := a * token.oneToken,
                     gasGwei := gas })

/-- removeToken(address): throws when locked; returns unchanged when the
address is not registered; otherwise filters the entry out. -/
def removeToken (s : WalletState) (address : String) : WalletState × Except Err Unit :=
  if s.isLocked then (s, .error .walletLocked)
  else if (s.tokens.find? fun t => t.address == address).isNone then (s, .ok ())
  else ({ s with tokens := s.tokens.filter fun t => t.address != address }, .ok ())

/-- Transport failures of the gas-price request. -/
inductive NetError where
  | timeout
  | unreachable
deriving DecidableEq

/-- An HTTP GET request description as configured on the axios instance. -/
structure HttpRequest where
  url : String
  timeoutMs : Nat
deriving DecidableEq

/-- The fixed oracle endpoint baked into the axios instance of api.js. -/
def gasApiBaseUrl : String := "https://ethgasstation.info/json/ethgasAPI.json"

/-- The axios.create configuration of api.js: the base URL and a ten
second timeout. A get call with no path resolves to the base URL. -/
def gasApiRequest : HttpRequest := { url := gasApiBaseUrl, timeoutMs := 10000 }

/-- ETHGAS.getGasPrice: one gasApi.get() call. The transport argument
models the axios layer resolving with the parsed response or rejecting;
the first component records the requests issued. -/
def getGasPrice {J : Type} (transport : HttpRequest → Except NetError J) :
    List HttpRequest × Except NetError J :=
  ([gasApiRequest], transport gasApiRequest)

/-- The session states reachable from the module factory functions by the
exposed operations: each step takes the state at return or throw time of
one method call, with arbitrary arguments and oracle answers. -/
inductive Reachable : WalletState → Prop where
  | init (sg : Signer) : Reachable (mkWebWallet sg)
  | connectStep (s : WalletState) (network : String) :
      Reachable s → Reachable (connect s network).1
  | addTokenStep (s : WalletState) (symbol address : String) (d : Nat) :
      Reachable s → Reachable (addToken s symbol address d).1
  | lockStep (s : WalletState) (p : String) :
      Reachable s → Reachable (lock s p).1
  | unlockStep (s : WalletState) (p : String) :
      Reachable s → Reachable (unlock s p).1
  | setNonceStep (s : WalletState) (c : Nat) :
      Reachable s → Reachable (setNonce s c).1
  | sendEtherStep (s : WalletState) (toAddr amount gas : String) :
      Reachable s → Reachable (sendEther s toAddr amount gas).1
  | sendTokenStep (s : WalletState) (ta toAddr amount gas : String) :
      Reachable s → Reachable (sendToken s ta toAddr amount gas).1
  | removeTokenStep (s : WalletState) (address : String) :
      Reachable s → Reachable (removeToken s address).1

/-- The session invariant: the locked flag mirrors the presence of the
signer, a stored backup protects the data of the installed signer, token
addresses are unique, and every entry carries its derived scale factor. -/
def SessionInv (s : WalletState) : Prop :=
  (s.isLocked = false → ∃ sg, s.wallet = some sg) ∧
  (s.isLocked = true → s.wallet = none) ∧
  (∀ backup sg, s.encryptedJsonWallet = some backup → s.wallet = some sg →
      sg.data = backup.payload) ∧
  (s.tokens.map TokenEntry.address).Nodup ∧
  (∀ t ∈ s.tokens, t.oneToken = 10 ^ t.decimals)

/-- Concrete key material used to evaluate the theorems below on closed
inputs. -/
def wdA : WalletData := { address := "0xME", privateKey := "pkA", mnemonic := "mnA" }

/-- A concrete signer over wdA. -/
def sgA : Signer := { data := wdA, provider := none }

/-- A freshly created session locked with the passphrase pw. -/
def lockedA : WalletState := (lock (mkWebWallet sgA) "pw").1

/-- The backup produced by locking the fresh session with pw. -/
def backupA : EncryptedJson := { payload := wdA, password := "pw" }

/-- A fresh session connected to homestead. -/
def sConn : WalletState := (connect (mkWebWallet sgA) "homestead").1

/-- The connected session after registering one token. -/
def sTok : WalletState := (addToken sConn "USDC" "0xTOK" 6).1

/-- The token entry registered in sTok. -/
def tokT : TokenEntry :=
  { symbol := "USDC", address := "0xTOK", decimals := 6, oneToken := 10 ^ 6 }

/-- An unlocked session holding one registered token, used to evaluate
theorems whose hypotheses do not require reachability. -/
def unlockedTok : WalletState :=
  { wallet := some { data := wdA, provider := some "homestead" }
    isLocked := false
    tokens := [tokT]
    provider := some "homestead"
    transactionNonce := some 5
    network := "homestead"
    encryptedJsonWallet := none }

/-- A concrete outgoing Transfer event used to evaluate the history
theorems. -/
def evOut : TransferEvent :=
  { transactionHash := "h1", fromAddr := "0xME", toAddr := "0xYOU",
    amount := 3 * 10 ^ 18 }

theorem find?_token_eq_none {l : List TokenEntry} {a : String}
    (h : ∀ t ∈ l, t.address ≠ a) : (l.find? fun t => t.address == a) = none :=
  List.find?_eq_none.mpr fun t ht => by simpa using h t ht

theorem find?_token_some {l : List TokenEntry} {a : String} {t : TokenEntry}
    (h : (l.find? fun x => x.address == a) = some t) : t ∈ l ∧ t.address = a :=
  ⟨List.mem_of_find?_eq_some h, by simpa using List.find?_some h⟩

theorem sessionInv_mk (sg : Signer) : SessionInv (mkWebWallet sg) := by
  refine ⟨fun _ => ⟨sg, rfl⟩, ?_, ?_, ?_, ?_⟩ <;> simp [mkWebWallet]

theorem sessionInv_connect (s : WalletState) (n : String) (h : SessionInv s) :
    SessionInv (connect s n).1 := by
  obtain ⟨h1, h2, h3, h4, h5⟩ := h
  cases hw : s.wallet with
  | none =>
      have hres : (connect s n).1 = s := by simp [connect, hw]
      rw [hres]
      exact ⟨h1, h2, h3, h4, h5⟩
  | some sg =>
      have hres : (connect s n).1 =
          { s with provider := some n, network := n,
                   wallet := some { sg with provider := some n } } := by
        simp [connect, hw]
      rw [hres]
      refine ⟨fun _ => ⟨_, rfl⟩, fun hlk => ?_, fun b sg2 hb hsg2 => ?_, h4, h5⟩
      · have := h2 hlk
        simp [hw] at this
      · obtain rfl : { sg with provider := some n } = sg2 := Option.some.inj hsg2
        exact h3 b sg hb hw

theorem sessionInv_addToken (s : WalletState) (symbol address : String) (d : Nat)
    (h : SessionInv s) : SessionInv (addToken s symbol address d).1 := by
  obtain ⟨h1, h2, h3, h4, h5⟩ := h
  by_cases hl : s.isLocked
  · have hres : (addToken s symbol address d).1 = s := by simp [addToken, hl]
    rw [hres]; exact ⟨h1, h2, h3, h4, h5⟩
  · by_cases hf : (s.tokens.find? fun t => t.address == address).isSome
    · have hres : (addToken s symbol address d).1 = s := by simp [addToken, hl, hf]
      rw [hres]; exact ⟨h1, h2, h3, h4, h5⟩
    · cases hw : s.wallet with
      | none =>
          have hres : (addToken s symbol address d).1 = s := by
            simp [addToken, hl, hf, hw]
          rw [hres]; exact ⟨h1, h2, h3, h4, h5⟩
      | some sg =>
          cases hp : sg.provider with
          | none =>
              have hres : (addToken s symbol address d).1 = s := by
                simp [addToken, hl, hf, hw, hp]
              rw [hres]; exact ⟨h1, h2, h3, h4, h5⟩
          | some net =>
              have hnone : (s.tokens.find? fun t => t.address == address) = none :=
                Option.not_isSome_iff_eq_none.mp hf
              have hnotmem : address ∉ s.tokens.map TokenEntry.address := by
                intro hmem
                obtain ⟨t, ht, hta⟩ := List.mem_map.mp hmem
                exact absurd hta (by simpa using List.find?_eq_none.mp hnone t ht)
              have hres : (addToken s symbol address d).1 =
                  { s with tokens := s.tokens ++
                      [{ symbol := symbol, address := address, decimals := d,
                         oneToken := 10 ^ d }] } := by
                simp [addToken, hl, hf, hw, hp]
              rw [hres]
              refine ⟨fun _ => ⟨sg, hw⟩, h2, fun b sg2 hb hsg2 => h3 b sg2 hb hsg2,
                ?_, ?_⟩
              · show ((s.tokens ++ [_]).map TokenEntry.address).Nodup
                rw [List.map_append, List.map_singleton, ← List.concat_eq_append]
                exact List.Nodup.concat hnotmem h4
              · intro t ht
                rcases List.mem_append.mp ht with hmem | hmem
                · exact h5 t hmem
                · rw [List.mem_singleton.mp hmem]

theorem sessionInv_lock (s : WalletState) (p : String) (h : SessionInv s) :
    SessionInv (lock s p).1 := by
  obtain ⟨h1, h2, h3, h4, h5⟩ := h
  cases hb : s.encryptedJsonWallet with
  | some backup =>
      have hres : (lock s p).1 =
          { s with wallet := none, isLocked := true, provider := none,
                   tokens := [], network := "" } := by
        simp [lock, hb]
      rw [hres]
      exact ⟨fun hc => by simp at hc, fun _ => rfl, fun b sg2 _ hsg2 => by simp at hsg2,
        List.nodup_nil, by simp⟩
  | none =>
      cases hw : s.wallet with
      | none =>
          have hres : (lock s p).1 = s := by simp [lock, hb, hw]
          rw [hres]; exact ⟨h1, h2, h3, h4, h5⟩
      | some sg =>
          have hres : (lock s p).1 =
              { s with encryptedJsonWallet := some { payload := sg.data, password := p },
                       wallet := none, isLocked := true, provider := none,
                       tokens := [], network := "" } := by
            simp [lock, hb, hw]
          rw [hres]
          exact ⟨fun hc => by simp at hc, fun _ => rfl,
            fun b sg2 _ hsg2 => by simp at hsg2, List.nodup_nil, by simp⟩

theorem sessionInv_unlock (s : WalletState) (p : String) (h : SessionInv s) :
    SessionInv (unlock s p).1 := by
  obtain ⟨h1, h2, h3, h4, h5⟩ := h
  cases hb : s.encryptedJsonWallet with
  | none =>
      have hres : (unlock s p).1 = s := by simp [unlock, hb]
      rw [hres]; exact ⟨h1, h2, h3, h4, h5⟩
  | some backup =>
      by_cases hp : p = backup.password
      · have hres : (unlock s p).1 =
            { s with wallet := some { data := backup.payload, provider := none },
                     isLocked := false } := by
          simp [unlock, hb, hp]
        rw [hres]
        refine ⟨fun _ => ⟨_, rfl⟩, fun hlk => by simp at hlk,
          fun b sg2 hb2 hsg2 => ?_, h4, h5⟩
        obtain rfl : { data := backup.payload, provider := none } = sg2 :=
          Option.some.inj hsg2
        have hb3 : s.encryptedJsonWallet = some b := hb2
        rw [hb] at hb3
        obtain rfl : backup = b := Option.some.inj hb3
        rfl
      · have hres : (unlock s p).1 = s := by simp [unlock, hb, hp]
        rw [hres]; exact ⟨h1, h2, h3, h4, h5⟩

theorem sessionInv_setNonce (s : WalletState) (c : Nat) (h : SessionInv s) :
    SessionInv (setNonce s c).1 := by
  obtain ⟨h1, h2, h3, h4, h5⟩ := h
  cases hw : s.wallet with
  | none =>
      have hres : (setNonce s c).1 = s := by simp [setNonce, hw]
      rw [hres]; exact ⟨h1, h2, h3, h4, h5⟩
  | some sg =>
      have hres : (setNonce s c).1 = { s with transactionNonce := some c } := by
        simp [setNonce, hw]
      rw [hres]
      refine ⟨fun _ => ⟨sg, hw⟩, fun hlk => ?_, fun b sg2 hb hsg2 => h3 b sg2 hb hsg2,
        h4, h5⟩
      have := h2 hlk
      simp [hw] at this

theorem sessionInv_sendEther (s : WalletState) (toAddr amount gas : String)
    (h : SessionInv s) : SessionInv (sendEther s toAddr amount gas).1 := by
  obtain ⟨h1, h2, h3, h4, h5⟩ := h
  by_cases hv : isValidAddress toAddr
  · cases hw : s.wallet with
    | none =>
        have hres : (sendEther s toAddr amount gas).1 = s := by simp [sendEther, hv, hw]
        rw [hres]; exact ⟨h1, h2, h3, h4, h5⟩
    | some sg =>
        have hres : (sendEther s toAddr amount gas).1 =
            { s with transactionNonce := some (s.transactionNonce.getD 0 + 1) } := by
          simp [sendEther, hv, hw]
        rw [hres]
        refine ⟨fun _ => ⟨sg, hw⟩, fun hlk => ?_,
          fun b sg2 hb hsg2 => h3 b sg2 hb hsg2, h4, h5⟩
        have := h2 hlk
        simp [hw] at this
  · have hres : (sendEther s toAddr amount gas).1 = s := by simp [sendEther, hv]
    rw [hres]; exact ⟨h1, h2, h3, h4, h5⟩

theorem sessionInv_sendToken (s : WalletState) (ta toAddr amount gas : String)
    (h : SessionInv s) : SessionInv (sendToken s ta toAddr amount gas).1 := by
  obtain ⟨h1, h2, h3, h4, h5⟩ := h
  by_cases hl : s.isLocked
  · have hres : (sendToken s ta toAddr amount gas).1 = s := by simp [sendToken, hl]
    rw [hres]; exact ⟨h1, h2, h3, h4, h5⟩
  · cases hf : s.tokens.find? fun t => t.address == ta with
    | none =>
        have hres : (sendToken s ta toAddr amount gas).1 = s := by
          simp [sendToken, hl, hf]
        rw [hres]; exact ⟨h1, h2, h3, h4, h5⟩
    | some token =>
        by_cases hv : isValidAddress toAddr
        · cases ha : amount.toNat? with
          | none =>
              have hres : (sendToken s ta toAddr amount gas).1 = s := by
                simp [sendToken, hl, hf, hv, ha]
              rw [hres]; exact ⟨h1, h2, h3, h4, h5⟩
          | some a =>
              have hres : (sendToken s ta toAddr amount gas).1 =
                  { s with transactionNonce := some (s.transactionNonce.getD 0 + 1) } := by
                simp [sendToken, hl, hf, hv, ha]
              rw [hres]
              refine ⟨fun _ => h1 (by simpa using hl), fun hlk => absurd hlk hl,
                fun b sg2 hb hsg2 => h3 b sg2 hb hsg2, h4, h5⟩
        · have hres : (sendToken s ta toAddr amount gas).1 = s := by
            simp [sendToken, hl, hf, hv]
          rw [hres]; exact ⟨h1, h2, h3, h4, h5⟩

theorem sessionInv_removeToken (s : WalletState) (address : String)
    (h : SessionInv s) : SessionInv (removeToken s address).1 := by
  obtain ⟨h1, h2, h3, h4, h5⟩ := h
  by_cases hl : s.isLocked
  · have hres : (removeToken s address).1 = s := by simp [removeToken, hl]
    rw [hres]; exact ⟨h1, h2, h3, h4, h5⟩
  · by_cases hf : (s.tokens.find? fun t => t.address == address).isNone
    · have hres : (removeToken s address).1 = s := by simp [removeToken, hl, hf]
      rw [hres]; exact ⟨h1, h2, h3, h4, h5⟩
    · have hres : (removeToken s address).1 =
          { s with tokens := s.tokens.filter fun t => t.address != address } := by
        simp [removeToken, hl, hf]
      rw [hres]
      refine ⟨h1, h2, fun b sg2 hb hsg2 => h3 b sg2 hb hsg2, ?_, ?_⟩
      · have hsub : ((s.tokens.filter fun t => t.address != address).map
            TokenEntry.address).Sublist (s.tokens.map TokenEntry.address) :=
          (List.filter_sublist s.tokens).map TokenEntry.address
        exact hsub.nodup h4
      · intro t ht
        exact h5 t (List.mem_of_mem_filter ht)

theorem reachable_inv {s : WalletState} (h : Reachable s) : SessionInv s := by
  induction h with
  | init sg => exact sessionInv_mk sg
  | connectStep s n _ ih => exact sessionInv_connect s n ih
  | addTokenStep s sym a d _ ih => exact sessionInv_addToken s sym a d ih
  | lockStep s p _ ih => exact sessionInv_lock s p ih
  | unlockStep s p _ ih => exact sessionInv_unlock s p ih
  | setNonceStep s c _ ih => exact sessionInv_setNonce s c ih
  | sendEtherStep s t a g _ ih => exact sessionInv_sendEther s t a g ih
  | sendTokenStep s ta t a g _ ih => exact sessionInv_sendToken s ta t a g ih
  | removeTokenStep s a _ ih => exact sessionInv_removeToken s a ih

/-- C1 counterexample: on a reachable locked session, getEtherHistory
called with an explicit valid network and an explicit address performs
no lock check and succeeds with an ordinary result instead of
signalling any rejection. -/
theorem c1_locked_counterexample :
    getEtherHistory (lock (mkWebWallet sgA) "pw").1 (some "homestead")
        (some "0xOTHER") (fun _ => []) = Except.ok [] ∧
    (lock (mkWebWallet sgA) "pw").1.isLocked = true :=
  ⟨rfl, rfl⟩

/-- C1 (amended): on a locked session, getAddress, getPrivateKey,
getMnemonics, getEtherBalance, getTokenBalance, getTokenHistory and
sendToken all signal the locked-wallet precondition error and leave the
state unchanged; getEtherHistory performs no lock check: with an
explicit address and an effective network the Etherscan provider
accepts, it proceeds and returns history normally, while with an
unaccepted effective network - including the empty default that every
locked session holds - it rejects with the invalid-network error of the
provider constructor, and with the address defaulted it rejects with
the TypeError from the null handle, none of these a precondition error;
sendEther performs no lock check either and rejects with the address
validation error or the TypeError from the null handle, leaving the
state unchanged. -/
theorem c1_locked_operations :
    (∀ s, s.isLocked = true → getAddress s = .error .walletLocked) ∧
    (∀ s, s.isLocked = true → getPrivateKey s = .error .walletLocked) ∧
    (∀ s, s.isLocked = true → getMnemonics s = .error .walletLocked) ∧
    (∀ s wei, s.isLocked = true → getEtherBalance s wei = .error .walletLocked) ∧
    (∀ s a bal, s.isLocked = true → getTokenBalance s a bal = .error .walletLocked) ∧
    (∀ s a evs, s.isLocked = true → getTokenHistory s a evs = .error .walletLocked) ∧
    (∀ s ta t a g, s.isLocked = true →
        sendToken s ta t a g = (s, .error .walletLocked)) ∧
    (∀ s net a hist, s.isLocked = true →
        isEtherscanNetwork (net.getD s.network) = true →
        getEtherHistory s net (some a) hist =
          .ok ((hist (net.getD s.network)).map (etherHistoryEntry a))) ∧
    (∀ s net a hist, s.isLocked = true →
        isEtherscanNetwork (net.getD s.network) = false →
        getEtherHistory s net (some a) hist = .error .invalidNetwork) ∧
    (∀ s net hist, s.isLocked = true → s.wallet = none →
        getEtherHistory s net none hist = .error .nullWallet) ∧
    (∀ s t a g, s.isLocked = true → s.wallet = none →
        sendEther s t a g = (s, [],
          .error (if isValidAddress t then Err.nullWallet else Err.invalidAddress))) := by
  refine ⟨?_, ?_, ?_, ?_, ?_, ?_, ?_, ?_, ?_, ?_, ?_⟩
  · intro s h; simp [getAddress, h]
  · intro s h; simp [getPrivateKey, h]
  · intro s h; simp [getMnemonics, h]
  · intro s wei h; simp [getEtherBalance, h]
  · intro s a bal h; simp [getTokenBalance, h]
  · intro s a evs h; simp [getTokenHistory, h]
  · intro s ta t a g h; simp [sendToken, h]
  · intro s net a hist _ hv; simp [getEtherHistory, hv]
  · intro s net a hist _ hv; simp [getEtherHistory, hv]
  · intro s net hist _ hw; simp [getEtherHistory, hw]
  · intro s t a g _ hw
    by_cases hv : isValidAddress t <;> simp [sendEther, hv, hw]

/-- C1 witness: the amended statement evaluated on the concrete locked
session lockedA, whose network field is the empty string. -/
theorem c1_locked_operations_witness :
    getAddress lockedA = .error .walletLocked ∧
    getTokenBalance lockedA "0xTOK" 77 = .error .walletLocked ∧
    getTokenHistory lockedA "0xTOK" [] = .error .walletLocked ∧
    sendToken lockedA "0xTOK" "0x123" "1" "9" = (lockedA, .error .walletLocked) ∧
    getEtherHistory lockedA (some "homestead") (some "0xME") (fun _ => []) =
      .ok [] ∧
    getEtherHistory lockedA none (some "0xME") (fun _ => []) =
      .error .invalidNetwork ∧
    sendEther lockedA "0x123" "1" "9" = (lockedA, [], .error .invalidAddress) :=
  ⟨c1_locked_operations.1 lockedA rfl,
   c1_locked_operations.2.2.2.2.1 lockedA "0xTOK" 77 rfl,
   c1_locked_operations.2.2.2.2.2.1 lockedA "0xTOK" [] rfl,
   c1_locked_operations.2.2.2.2.2.2.1 lockedA "0xTOK" "0x123" "1" "9" rfl,
   by
     simpa using c1_locked_operations.2.2.2.2.2.2.2.1 lockedA (some "homestead")
       "0xME" (fun _ => []) rfl (by decide),
   c1_locked_operations.2.2.2.2.2.2.2.2.1 lockedA none "0xME" (fun _ => [])
     rfl (by decide),
   by
     simpa using c1_locked_operations.2.2.2.2.2.2.2.2.2.2 lockedA "0x123" "1" "9"
       rfl rfl⟩

/-- C3: unlocking a locked session that holds an encrypted backup with a
passphrase different from the one that produced the backup rejects with
the wrong-password authentication error and leaves the whole session
state unchanged. -/
theorem c3_unlock_wrong_password (s : WalletState) (b : EncryptedJson) (p : String)
    (hl : s.isLocked = true) (hb : s.encryptedJsonWallet = some b)
    (hp : p ≠ b.password) :
    unlock s p = (s, Except.error Err.wrongPassword) := by
  simp [unlock, hb, hp]

/-- C3 witness: the wrong-password rejection evaluated on the concrete
locked session lockedA. -/
theorem c3_unlock_wrong_password_witness :
    unlock lockedA "bad" = (lockedA, Except.error Err.wrongPassword) :=
  c3_unlock_wrong_password lockedA backupA "bad" rfl rfl (by decide)

/-- C5: lock on an unlocked session encrypts the signing handle only
when no backup exists yet, clears the handle, provider, tokens and
network, sets the locked flag and returns the backup; when a backup
already exists it is returned without re-encrypting; re-locking with any
passphrase is idempotent, returns the same backup and performs no
encryption. -/
theorem c5_lock_behavior (s : WalletState) (p : String) (sg : Signer)
    (hu : s.isLocked = false) (hw : s.wallet = some sg) :
    (s.encryptedJsonWallet = none →
      lock s p = ({ s with
                    encryptedJsonWallet := some { payload := sg.data, password := p },
                    wallet := none, isLocked := true, provider := none,
                    tokens := [], network := "" },
        [Effect.encryptWallet p], Except.ok { payload := sg.data, password := p })) ∧
    (∀ b, s.encryptedJsonWallet = some b →
      lock s p = ({ s with
                    wallet := none, isLocked := true, provider := none,
                    tokens := [], network := "" }, [], Except.ok b)) ∧
    (∀ q, lock (lock s p).1 q = ((lock s p).1, [], (lock s p).2.2)) := by
  refine ⟨fun hb => by simp [lock, hb, hw], fun b hb => by simp [lock, hb], fun q => ?_⟩
  cases hb : s.encryptedJsonWallet with
  | none => simp [lock, hb, hw]
  | some b => simp [lock, hb]

/-- C5 witness: the first lock of a fresh session and an idempotent
re-lock, evaluated concretely. -/
theorem c5_lock_behavior_witness :
    lock (mkWebWallet sgA) "pw" =
      ({ mkWebWallet sgA with
         encryptedJsonWallet := some { payload := sgA.data, password := "pw" },
         wallet := none, isLocked := true, provider := none,
         tokens := [], network := "" },
       [Effect.encryptWallet "pw"],
       Except.ok { payload := sgA.data, password := "pw" }) ∧
    lock (lock (mkWebWallet sgA) "pw").1 "again" =
      ((lock (mkWebWallet sgA) "pw").1, [], (lock (mkWebWallet sgA) "pw").2.2) :=
  ⟨(c5_lock_behavior (mkWebWallet sgA) "pw" sgA rfl rfl).1 rfl,
   (c5_lock_behavior (mkWebWallet sgA) "pw" sgA rfl rfl).2.2 "again"⟩

/-- C8: sendEther rejects a malformed target address with the validation
error, issuing no network request and leaving the state - in particular
the pending nonce - unchanged; on a well-formed address it submits one
transaction carrying the current nonce and post-increments the nonce. -/
theorem c8_sendEther (s : WalletState) (t amount gas : String) :
    (isValidAddress t = false →
      sendEther s t amount gas = (s, [], Except.error Err.invalidAddress)) ∧
    (∀ sg n, isValidAddress t = true → s.wallet = some sg →
      s.transactionNonce = some n →
      sendEther s t amount gas =
        ({ s with transactionNonce := some (n + 1) },
         [Effect.sendTransaction n t],
         Except.ok { nonce := n, toAddr := t, amountEther := amount,
                     gasGwei := gas })) := by
  refine ⟨fun hv => by simp [sendEther, hv], fun sg n hv hw hn => by
    simp [sendEther, hv, hw, hn]⟩

/-- C8 witness: the rejection on the malformed address 0x123 and the
nonce use and increment on a well-formed address, evaluated on
unlockedTok whose pending nonce is five. -/
theorem c8_sendEther_witness :
    sendEther unlockedTok "0x123" "1" "9" =
      (unlockedTok, [], Except.error Err.invalidAddress) ∧
    sendEther unlockedTok "0xaaaaaaaaaaaaaaaaaaaaaaaaaaaaaaaaaaaaaaaa" "1" "9" =
      ({ unlockedTok with transactionNonce := some 6 },
       [Effect.sendTransaction 5 "0xaaaaaaaaaaaaaaaaaaaaaaaaaaaaaaaaaaaaaaaa"],
       Except.ok { nonce := 5, toAddr := "0xaaaaaaaaaaaaaaaaaaaaaaaaaaaaaaaaaaaaaaaa",
                   amountEther := "1", gasGwei := "9" }) :=
  ⟨(c8_sendEther unlockedTok "0x123" "1" "9").1 (by decide),
   by simpa using (c8_sendEther unlockedTok "0xaaaaaaaaaaaaaaaaaaaaaaaaaaaaaaaaaaaaaaaa"
      "1" "9").2 { data := wdA, provider := some "homestead" } 5 (by decide) rfl rfl⟩

/-- C2: on a reachable unlocked session, locking with a passphrase that
is correct for the stored backup (vacuously so when no backup exists)
and immediately unlocking with the same passphrase succeeds, restores
the unlocked state and yields the same getAddress value as before
locking. -/
theorem c2_lock_unlock_roundtrip (s : WalletState) (p : String) (sg : Signer)
    (hr : Reachable s) (hu : s.isLocked = false) (hw : s.wallet = some sg)
    (hp : ∀ b, s.encryptedJsonWallet = some b → b.password = p) :
    (unlock (lock s p).1 p).1.isLocked = false ∧
    (unlock (lock s p).1 p).2 = Except.ok () ∧
    getAddress (unlock (lock s p).1 p).1 = getAddress s := by
  cases hb : s.encryptedJsonWallet with
  | none =>
      refine ⟨?_, ?_, ?_⟩ <;> simp [lock, hb, hw, unlock, getAddress, hu]
  | some backup =>
      have hpw : backup.password = p := hp backup hb
      obtain ⟨_, _, h3, _, _⟩ := reachable_inv hr
      have hdata : sg.data = backup.payload := h3 backup sg hb hw
      refine ⟨?_, ?_, ?_⟩ <;>
        simp [lock, hb, hw, unlock, hpw, getAddress, hu, hdata]

/-- C2 witness: the lock and unlock round trip evaluated on a freshly
created session with the passphrase pw. -/
theorem c2_lock_unlock_roundtrip_witness :
    (unlock (lock (mkWebWallet sgA) "pw").1 "pw").1.isLocked = false ∧
    (unlock (lock (mkWebWallet sgA) "pw").1 "pw").2 = Except.ok () ∧
    getAddress (unlock (lock (mkWebWallet sgA) "pw").1 "pw").1 =
      getAddress (mkWebWallet sgA) :=
  c2_lock_unlock_roundtrip (mkWebWallet sgA) "pw" sgA (Reachable.init sgA) rfl rfl
    (fun b hb => by simp [mkWebWallet] at hb)

/-- C4: in every reachable session state the registered token addresses
are pairwise distinct, and calling addToken on an unlocked session with
an address that is already registered is a complete no-op: the state is
unchanged and no decimals fetch is performed. -/
theorem c4_token_uniqueness :
    (∀ s, Reachable s → (s.tokens.map TokenEntry.address).Nodup) ∧
    (∀ s symbol address d, s.isLocked = false →
        (∃ t ∈ s.tokens, t.address = address) →
        addToken s symbol address d = (s, [], Except.ok ())) := by
  constructor
  · intro s hr
    exact (reachable_inv hr).2.2.2.1
  · rintro s sym a d hl ⟨t, ht, hta⟩
    have hf : (s.tokens.find? fun x => x.address == a).isSome :=
      List.find?_isSome.mpr ⟨t, ht, by simp [hta]⟩
    simp [addToken, hl, hf]

/-- C4 witness: uniqueness on a reachable state carrying one token, and
the no-op of re-adding the token already registered in unlockedTok. -/
theorem c4_token_uniqueness_witness :
    (sTok.tokens.map TokenEntry.address).Nodup ∧
    addToken unlockedTok "USDC" "0xTOK" 6 = (unlockedTok, [], Except.ok ()) :=
  ⟨c4_token_uniqueness.1 sTok
      (Reachable.addTokenStep sConn "USDC" "0xTOK" 6
        (Reachable.connectStep (mkWebWallet sgA) "homestead" (Reachable.init sgA))),
   c4_token_uniqueness.2 unlockedTok "USDC" "0xTOK" 6 rfl
      ⟨tokT, by simp [unlockedTok], rfl⟩⟩

/-- C6: getTokenBalance rejects with the not-found error when the
address is unregistered, and on a reachable unlocked session with a
registered token of d decimals returns the raw balance divided by
10 ^ d with the quotient truncated (Nat division). -/
theorem c6_getTokenBalance :
    (∀ s a bal, s.isLocked = false → (∀ t ∈ s.tokens, t.address ≠ a) →
        getTokenBalance s a bal = Except.error Err.tokenNotFound) ∧
    (∀ s a bal tok, Reachable s → s.isLocked = false →
        (s.tokens.find? fun t => t.address == a) = some tok →
        getTokenBalance s a bal = Except.ok (bal / 10 ^ tok.decimals)) := by
  constructor
  · intro s a bal hl hnone
    simp [getTokenBalance, hl, find?_token_eq_none hnone]
  · intro s a bal tok hr hl hf
    obtain ⟨h1, _, _, _, h5⟩ := reachable_inv hr
    obtain ⟨sg, hw⟩ := h1 hl
    have hone : tok.oneToken = 10 ^ tok.decimals := h5 tok (find?_token_some hf).1
    simp [getTokenBalance, hl, hf, hw, hone]

/-- C6 witness: the not-found rejection on a fresh session and the
truncating division on the reachable session sTok holding a six-decimal
token. -/
theorem c6_getTokenBalance_witness :
    getTokenBalance (mkWebWallet sgA) "0xTOK" 5 = Except.error Err.tokenNotFound ∧
    getTokenBalance sTok "0xTOK" 12345678 = Except.ok (12345678 / 10 ^ 6) :=
  ⟨c6_getTokenBalance.1 (mkWebWallet sgA) "0xTOK" 5 rfl (by simp [mkWebWallet]),
   by
     simpa using c6_getTokenBalance.2 sTok "0xTOK" 12345678 tokT
       (Reachable.addTokenStep sConn "USDC" "0xTOK" 6
         (Reachable.connectStep (mkWebWallet sgA) "homestead" (Reachable.init sgA)))
       (by decide) (by decide)⟩

/-- C7: getTokenHistory rejects when the wallet is locked or the token
is unregistered; otherwise it returns exactly the Transfer events whose
from or to field is the wallet address, each classified SELF when both
fields equal the wallet address, OUT when only the from field does and
IN otherwise, with the amount always the transferred value divided by
10 ^ 18 regardless of the registered decimals of the token. -/
theorem c7_getTokenHistory :
    (∀ s a evs, s.isLocked = true →
        getTokenHistory s a evs = Except.error Err.walletLocked) ∧
    (∀ s a evs, s.isLocked = false → (∀ t ∈ s.tokens, t.address ≠ a) →
        getTokenHistory s a evs = Except.error Err.tokenNotFound) ∧
    (∀ s a evs sg tok, s.isLocked = false → s.wallet = some sg →
        (s.tokens.find? fun t => t.address == a) = some tok →
        ∃ l, getTokenHistory s a evs = Except.ok l ∧
          ∀ x, x ∈ l ↔ ∃ e ∈ evs,
            (e.fromAddr = sg.data.address ∨ e.toAddr = sg.data.address) ∧
            x = tokenHistoryEntry sg.data.address e) ∧
    (∀ w e, ((tokenHistoryEntry w e).status = "SELF" ↔
                e.fromAddr = w ∧ e.toAddr = w) ∧
            ((tokenHistoryEntry w e).status = "OUT" ↔
                e.fromAddr = w ∧ e.toAddr ≠ w) ∧
            ((tokenHistoryEntry w e).status = "IN" ↔ e.fromAddr ≠ w) ∧
            (tokenHistoryEntry w e).fromAddr = e.fromAddr ∧
            (tokenHistoryEntry w e).toAddr = e.toAddr ∧
            (tokenHistoryEntry w e).amount = toString (e.amount / 10 ^ 18)) := by
  refine ⟨?_, ?_, ?_, ?_⟩
  · intro s a evs hl
    simp [getTokenHistory, hl]
  · intro s a evs hl hnone
    simp [getTokenHistory, hl, find?_token_eq_none hnone]
  · intro s a evs sg tok hl hw hf
    refine ⟨(evs.filter fun d =>
        d.fromAddr == sg.data.address || d.toAddr == sg.data.address).map
        (tokenHistoryEntry sg.data.address),
      by simp [getTokenHistory, hl, hf, hw], fun x => ?_⟩
    constructor
    · intro hx
      obtain ⟨e, he, hex⟩ := List.mem_map.mp hx
      obtain ⟨hev, hcond⟩ := List.mem_filter.mp he
      exact ⟨e, hev, by simpa using hcond, hex.symm⟩
    · rintro ⟨e, hev, hcond, rfl⟩
      exact List.mem_map.mpr ⟨e, List.mem_filter.mpr ⟨hev, by simpa using hcond⟩, rfl⟩
  · intro w e
    refine ⟨?_, ?_, ?_, rfl, rfl, rfl⟩ <;>
      by_cases h1 : e.fromAddr = w <;> by_cases h2 : e.toAddr = w <;>
        simp [tokenHistoryEntry, h1, h2]

/-- C7 witness: the locked and unregistered rejections, the filtered and
reshaped log on unlockedTok, and the classification of a concrete
outgoing event. -/
theorem c7_getTokenHistory_witness :
    getTokenHistory lockedA "0xTOK" [] = Except.error Err.walletLocked ∧
    getTokenHistory (mkWebWallet sgA) "0xTOK" [] = Except.error Err.tokenNotFound ∧
    (∃ l, getTokenHistory unlockedTok "0xTOK" [evOut] = Except.ok l ∧
      ∀ x, x ∈ l ↔ ∃ e ∈ [evOut],
        (e.fromAddr = wdA.address ∨ e.toAddr = wdA.address) ∧
        x = tokenHistoryEntry wdA.address e) ∧
    ((tokenHistoryEntry "0xME" evOut).status = "OUT" ↔
      evOut.fromAddr = "0xME" ∧ evOut.toAddr ≠ "0xME") :=
  ⟨c7_getTokenHistory.1 lockedA "0xTOK" [] rfl,
   c7_getTokenHistory.2.1 (mkWebWallet sgA) "0xTOK" [] rfl (by simp [mkWebWallet]),
   c7_getTokenHistory.2.2.1 unlockedTok "0xTOK" [evOut]
     { data := wdA, provider := some "homestead" } tokT rfl rfl (by decide),
   (c7_getTokenHistory.2.2.2 "0xME" evOut).2.1⟩

/-- C9: getGasPrice issues exactly one GET request, to the fixed gas
oracle URL with a ten second timeout, performs no retry and no caching,
and hands the transport answer - parsed body on success, network or
timeout failure otherwise - to the caller unmodified. -/
theorem c9_getGasPrice : ∀ (J : Type) (transport : HttpRequest → Except NetError J),
    (getGasPrice transport).1 = [gasApiRequest] ∧
    (getGasPrice transport).1.length = 1 ∧
    gasApiRequest.url = gasApiBaseUrl ∧
    gasApiRequest.timeoutMs = 10000 ∧
    (getGasPrice transport).2 = transport gasApiRequest :=
  fun _ _ => ⟨rfl, rfl, rfl, rfl, rfl⟩

/-- C9 witness: the single fixed request and the unmodified answer,
evaluated on a transport that resolves with the body 42. -/
theorem c9_getGasPrice_witness :
    (getGasPrice (fun _ => (Except.ok 42 : Except NetError Nat))).1 =
      [gasApiRequest] ∧
    (getGasPrice (fun _ => (Except.ok 42 : Except NetError Nat))).2 =
      Except.ok 42 :=
  ⟨(c9_getGasPrice Nat (fun _ => Except.ok 42)).1,
   (c9_getGasPrice Nat (fun _ => Except.ok 42)).2.2.2.2⟩

/-- C10: once a session holds an encrypted backup, no operation ever
modifies it: every operation preserves the stored backup, lock returns
it without re-encrypting (no effects), and unlock reads it without
clearing it. -/
theorem c10_backup_immutable (s : WalletState) (b : EncryptedJson)
    (hb : s.encryptedJsonWallet = some b) :
    (∀ n, (connect s n).1.encryptedJsonWallet = some b) ∧
    (∀ sym a d, (addToken s sym a d).1.encryptedJsonWallet = some b) ∧
    (∀ p, (lock s p).1.encryptedJsonWallet = some b ∧
          (lock s p).2.1 = [] ∧ (lock s p).2.2 = Except.ok b) ∧
    (∀ p, (unlock s p).1.encryptedJsonWallet = some b) ∧
    (∀ c, (setNonce s c).1.encryptedJsonWallet = some b) ∧
    (∀ t a g, (sendEther s t a g).1.encryptedJsonWallet = some b) ∧
    (∀ ta t a g, (sendToken s ta t a g).1.encryptedJsonWallet = some b) ∧
    (∀ a, (removeToken s a).1.encryptedJsonWallet = some b) := by
  refine ⟨?_, ?_, ?_, ?_, ?_, ?_, ?_, ?_⟩
  · intro n
    cases hw : s.wallet <;> simp [connect, hw, hb]
  · intro sym a d
    by_cases hl : s.isLocked
    · simp [addToken, hl, hb]
    · by_cases hf : (s.tokens.find? fun t => t.address == a).isSome
      · simp [addToken, hl, hf, hb]
      · cases hw : s.wallet with
        | none => simp [addToken, hl, hf, hw, hb]
        | some sg => cases hp : sg.provider <;> simp [addToken, hl, hf, hw, hp, hb]
  · intro p
    refine ⟨?_, ?_, ?_⟩ <;> simp [lock, hb]
  · intro p
    by_cases hp : p = b.password <;> simp [unlock, hb, hp]
  · intro c
    cases hw : s.wallet <;> simp [setNonce, hw, hb]
  · intro t a g
    by_cases hv : isValidAddress t
    · cases hw : s.wallet <;> simp [sendEther, hv, hw, hb]
    · simp [sendEther, hv, hb]
  · intro ta t a g
    by_cases hl : s.isLocked
    · simp [sendToken, hl, hb]
    · cases hf : s.tokens.find? fun x => x.address == ta with
      | none => simp [sendToken, hl, hf, hb]
      | some token =>
          by_cases hv : isValidAddress t
          · cases ha : a.toNat? <;> simp [sendToken, hl, hf, hv, ha, hb]
          · simp [sendToken, hl, hf, hv, hb]
  · intro a
    by_cases hl : s.isLocked
    · simp [removeToken, hl, hb]
    · by_cases hf : (s.tokens.find? fun t => t.address == a).isNone <;>
        simp [removeToken, hl, hf, hb]

/-- C10 witness: backup preservation evaluated on the concrete locked
session lockedA, whose backup is backupA. -/
theorem c10_backup_immutable_witness :
    (connect lockedA "ropsten").1.encryptedJsonWallet = some backupA ∧
    (lock lockedA "other").2.2 = Except.ok backupA ∧
    (lock lockedA "other").2.1 = ([] : List Effect) ∧
    (unlock lockedA "bad").1.encryptedJsonWallet = some backupA ∧
    (removeToken lockedA "0xTOK").1.encryptedJsonWallet = some backupA :=
  ⟨(c10_backup_immutable lockedA backupA rfl).1 "ropsten",
   ((c10_backup_immutable lockedA backupA rfl).2.2.1 "other").2.2,
   ((c10_backup_immutable lockedA backupA rfl).2.2.1 "other").2.1,
   (c10_backup_immutable lockedA backupA rfl).2.2.2.1 "bad",
   (c10_backup_immutable lockedA backupA rfl).2.2.2.2.2.2.2 "0xTOK"⟩

end WebWallet
